import Mathlib

/-!
Shallow embedding of the `smbus_go` package (src/smbus.go), a Go port of
python-smbus2 providing Linux SMBus/I2C transactions over a character
device.  Pure Go functions become Lean functions.  The single stateful
boundary — the `ioctl` system call — is modelled by an explicit `Kernel`
oracle that decides which kernel calls succeed and what response payload
the kernel writes into the 34-byte `i2c_smbus_data` union; every
operation additionally returns the ordered trace of ioctl calls it
attempted, so that claims about "no kernel call is issued" or about call
order are statable.  Machine integers are `Nat` (the Go code performs no
arithmetic that can overflow on the modelled paths; where a conversion
truncates we note it).  Each distinct error-return site of the Go code is
mapped to a constructor of `SMBusError`.
-/

namespace SMBusGo

/-- Constant table from src/smbus.go: size identifiers and limits from
uapi/linux/i2c.h. -/
def I2CSMBusWrite : Nat := 0

def I2CSMBusRead : Nat := 1

def I2CSMBusQuick : Nat := 0

def I2CSMBusByte : Nat := 1

def I2CSMBusByteData : Nat := 2

def I2CSMBusWordData : Nat := 3

def I2CSMBusProcCall : Nat := 4

def I2CSMBusBlockData : Nat := 5

def I2CSMBusBlockProcCall : Nat := 7

def I2CSMBusI2CBlockData : Nat := 8

def I2CSMBusBlockMax : Nat := 32

/-- Capability flag for PEC support, `SMBusPECFlag = 0x00000008` in the
source. -/
def SMBusPECFlag : Nat := 0x00000008

/-- Go `func (f FunctionFlags) BitsSet(bits uint32) bool`: true iff all of
the bits are set in `f`, computed as `(uint32(f) & bits) == bits`. -/
def BitsSet (f bits : Nat) : Bool := f.land bits == bits

/-- Union `i2c_smbus_data` content: 34 raw bytes (1 length byte + 32 data
bytes + 1 spare), represented as a list of byte values.  A fresh union
(`var data C.union_i2c_smbus_data`) is zero-initialized. -/
abbrev SMBusData : Type := List Nat

/-- Zero-initialized `i2c_smbus_data` union, as produced by
`var data C.union_i2c_smbus_data` in Go. -/
def freshData : SMBusData := List.replicate 34 0

/-- Go `copy(data[start : start+len(values)], values)`: overwrite
consecutive bytes of `data` beginning at `start` with `values`.
`List.set` past the end is a no-op, matching Go `copy` being bounded by
the destination length. -/
def copyInto (data : List Nat) (start : Nat) (values : List Nat) : List Nat :=
  match values with
  | [] => data
  | v :: rest => copyInto (data.set start v) (start + 1) rest

/-- The host's native byte order, abstract over the two possibilities
returned by `native_endian.NativeEndian()`. -/
inductive ByteOrder where
  | little
  | big
deriving DecidableEq, Repr

/-- Go `binary.ByteOrder.PutUint16(data, v)`: store the low byte and high
byte of `v` into bytes 0 and 1 of `data` in the given order. -/
def ByteOrder.putUint16 (bo : ByteOrder) (data : List Nat) (v : Nat) : List Nat :=
  match bo with
  | .little => (data.set 0 (v % 256)).set 1 (v / 256 % 256)
  | .big => (data.set 0 (v / 256 % 256)).set 1 (v % 256)

/-- Go `binary.ByteOrder.Uint16(data)`: read bytes 0 and 1 of `data` as a
16-bit value in the given order. -/
def ByteOrder.uint16 (bo : ByteOrder) (data : List Nat) : Nat :=
  match bo with
  | .little => data.getD 0 0 + 256 * data.getD 1 0
  | .big => data.getD 1 0 + 256 * data.getD 0 0

/-- The observable content of a `struct i2c_smbus_ioctl_data` control
block submitted through the `I2C_SMBUS` ioctl. -/
structure SMBusMsg where
  read_write : Nat
  command : Nat
  size : Nat
  data : SMBusData
deriving DecidableEq, Repr

/-- The observable content of one `struct i2c_msg` entry built by
`I2CRdWr` for the `I2C_RDWR` ioctl (`addr`, `flags`, `len` are the Go
`__u16` fields; the buffer pointer itself is not observable). -/
structure RawMsg where
  addr : Nat
  flags : Nat
  len : Nat
deriving DecidableEq, Repr

/-- One attempted ioctl, tagged by command code: `I2C_SLAVE` or
`I2C_SLAVE_FORCE` (slaveSelect, the Bool records which), `I2C_FUNCS`,
`I2C_PEC` with its integer argument, `I2C_SMBUS` with its control block,
and `I2C_RDWR` with its message array. -/
inductive IoctlCall where
  | slaveSelect (force : Bool) (address : Nat)
  | funcsQuery
  | pec (arg : Nat)
  | smbus (msg : SMBusMsg)
  | rdwr (msgs : List RawMsg)
deriving DecidableEq, Repr

/-- True for the `I2C_SMBUS` transaction-submitting ioctl. -/
def IoctlCall.isSmbus : IoctlCall → Bool
  | .smbus _ => true
  | _ => false

/-- Each distinct error-return site in src/smbus.go, named after the
error taxonomy the package documentation uses. -/
inductive SMBusError where
  | openError
  | capabilityQuery
  | unsupportedFeature
  | addressSelect
  | lengthLimit (n : Nat)
  | protocolViolation (n : Nat)
  | emptyTransfer
  | emptyBuffer
  | ioctlError
deriving DecidableEq, Repr

/-- Kernel behaviour oracle: decides which ioctl calls succeed, and for
the `I2C_SMBUS` ioctl what content the `i2c_smbus_data` union holds when
the call returns (the kernel writes responses into the caller's union in
place). -/
structure Kernel where
  slaveOk : Bool → Nat → Bool
  pecOk : Nat → Bool
  rdwrOk : List RawMsg → Bool
  smbusRespond : SMBusMsg → Option SMBusData

/-- Kernel-side session state visible to this layer: the slave
address+force pair most recently installed by a successful
`I2C_SLAVE`/`I2C_SLAVE_FORCE` ioctl on this descriptor, or `none` if no
such ioctl has succeeded since the descriptor was opened. -/
structure KernelState where
  selected : Option (Nat × Bool)
deriving DecidableEq, Repr

/-- Go `type SMBus struct` from src/smbus.go: the per-handle session
state (file descriptor omitted; it takes no part in the modelled
logic beyond identifying the kernel session). -/
structure SMBus where
  Funcs : Nat
  address : Nat
  Force : Bool
  prevForce : Bool
  pecEnabled : Bool
  nativeByteOrder : ByteOrder
deriving DecidableEq, Repr

/-- Result of one operation: the Go return value, the handle state after
the call, the kernel session state after the call, and the ordered trace
of ioctl calls attempted. -/
structure OpResult (α : Type) where
  ret : Except SMBusError α
  bus : SMBus
  kstate : KernelState
  trace : List IoctlCall

/-- Go `func (b *SMBus) setAddress(address uintptr) error`: if the
requested address differs from the cached one or the force flag differs
from the last-applied one, issue the `I2C_SLAVE` (or, when `Force` is
set, `I2C_SLAVE_FORCE`) ioctl; on success update the cached pair, on
failure leave the handle unchanged and propagate the error; otherwise do
nothing. -/
def setAddress (k : Kernel) (b : SMBus) (ks : KernelState) (address : Nat) :
    OpResult Unit :=
  if b.address ≠ address ∨ b.prevForce ≠ b.Force then
    let call := IoctlCall.slaveSelect b.Force address
    if k.slaveOk b.Force address then
      { ret := .ok ()
        bus := { b with address := address, prevForce := b.Force }
        kstate := { selected := some (address, b.Force) }
        trace := [call] }
    else
      { ret := .error .addressSelect, bus := b, kstate := ks, trace := [call] }
  else
    { ret := .ok (), bus := b, kstate := ks, trace := [] }

/-- Go `func (b *SMBus) EnablePEC(enable bool) error`: reject when the
capability mask lacks the PEC bit without touching the kernel; otherwise
issue the `I2C_PEC` ioctl with argument 1 or 0 and record the new PEC
state only when the ioctl succeeds. -/
def EnablePEC (k : Kernel) (b : SMBus) (ks : KernelState) (enable : Bool) :
    OpResult Unit :=
  if ¬ BitsSet b.Funcs SMBusPECFlag then
    { ret := .error .unsupportedFeature, bus := b, kstate := ks, trace := [] }
  else
    let arg : Nat := if enable then 1 else 0
    if k.pecOk arg then
      { ret := .ok (), bus := { b with pecEnabled := enable }, kstate := ks
        trace := [IoctlCall.pec arg] }
    else
      { ret := .error .ioctlError, bus := b, kstate := ks
        trace := [IoctlCall.pec arg] }

/-- Go `func (b *SMBus) WriteQuick(address uintptr) error`: select the
address, then submit a quick transaction with `read_write = I2CSMBusWrite`,
`command = 0`, `size = I2CSMBusQuick` and a fresh union. -/
def WriteQuick (k : Kernel) (b : SMBus) (ks : KernelState) (address : Nat) :
    OpResult Unit :=
  let s := setAddress k b ks address
  match s.ret with
  | .error e => { ret := .error e, bus := s.bus, kstate := s.kstate, trace := s.trace }
  | .ok _ =>
    let msg : SMBusMsg :=
      { read_write := I2CSMBusWrite, command := 0, size := I2CSMBusQuick
        data := freshData }
    match k.smbusRespond msg with
    | some _ =>
      { ret := .ok (), bus := s.bus, kstate := s.kstate
        trace := s.trace ++ [IoctlCall.smbus msg] }
    | none =>
      { ret := .error .ioctlError, bus := s.bus, kstate := s.kstate
        trace := s.trace ++ [IoctlCall.smbus msg] }

/-- Go `func (b *SMBus) ReadByte(address uintptr) (uint8, error)`: select
the address, submit a read with `command = 0`, `size = I2CSMBusByte`, and
return byte 0 of the union the kernel wrote. -/
def ReadByte (k : Kernel) (b : SMBus) (ks : KernelState) (address : Nat) :
    OpResult Nat :=
  let s := setAddress k b ks address
  match s.ret with
  | .error e => { ret := .error e, bus := s.bus, kstate := s.kstate, trace := s.trace }
  | .ok _ =>
    let msg : SMBusMsg :=
      { read_write := I2CSMBusRead, command := 0, size := I2CSMBusByte
        data := freshData }
    match k.smbusRespond msg with
    | some d =>
      { ret := .ok (d.getD 0 0), bus := s.bus, kstate := s.kstate
        trace := s.trace ++ [IoctlCall.smbus msg] }
    | none =>
      { ret := .error .ioctlError, bus := s.bus, kstate := s.kstate
        trace := s.trace ++ [IoctlCall.smbus msg] }

/-- Go `func (b *SMBus) WriteByte(address uintptr, value uint8) error`:
select the address, then submit a write with the value carried in the
`command` field (`command: C.__u8(value)` in the source) and
`size = I2CSMBusByte`. -/
def WriteByte (k : Kernel) (b : SMBus) (ks : KernelState) (address : Nat)
    (value : Nat) : OpResult Unit :=
  let s := setAddress k b ks address
  match s.ret with
  | .error e => { ret := .error e, bus := s.bus, kstate := s.kstate, trace := s.trace }
  | .ok _ =>
    let msg : SMBusMsg :=
      { read_write := I2CSMBusWrite, command := value, size := I2CSMBusByte
        data := freshData }
    match k.smbusRespond msg with
    | some _ =>
      { ret := .ok (), bus := s.bus, kstate := s.kstate
        trace := s.trace ++ [IoctlCall.smbus msg] }
    | none =>
      { ret := .error .ioctlError, bus := s.bus, kstate := s.kstate
        trace := s.trace ++ [IoctlCall.smbus msg] }

/-- Go `func (b *SMBus) ReadWordData(address uintptr, register uint8)
(uint16, error)`: select the address, submit a read with
`size = I2CSMBusWordData`, and decode bytes 0..1 of the kernel's response
with the handle's native byte order. -/
def ReadWordData (k : Kernel) (b : SMBus) (ks : KernelState) (address : Nat)
    (register : Nat) : OpResult Nat :=
  let s := setAddress k b ks address
  match s.ret with
  | .error e => { ret := .error e, bus := s.bus, kstate := s.kstate, trace := s.trace }
  | .ok _ =>
    let msg : SMBusMsg :=
      { read_write := I2CSMBusRead, command := register, size := I2CSMBusWordData
        data := freshData }
    match k.smbusRespond msg with
    | some d =>
      { ret := .ok (b.nativeByteOrder.uint16 d), bus := s.bus, kstate := s.kstate
        trace := s.trace ++ [IoctlCall.smbus msg] }
    | none =>
      { ret := .error .ioctlError, bus := s.bus, kstate := s.kstate
        trace := s.trace ++ [IoctlCall.smbus msg] }

/-- Go `func (b *SMBus) WriteWordData(address uintptr, register uint8,
value uint16) error`: select the address, encode `value` into bytes 0..1
of the union with the handle's native byte order, and submit a write with
`size = I2CSMBusWordData`. -/
def WriteWordData (k : Kernel) (b : SMBus) (ks : KernelState) (address : Nat)
    (register : Nat) (value : Nat) : OpResult Unit :=
  let s := setAddress k b ks address
  match s.ret with
  | .error e => { ret := .error e, bus := s.bus, kstate := s.kstate, trace := s.trace }
  | .ok _ =>
    let msg : SMBusMsg :=
      { read_write := I2CSMBusWrite, command := register, size := I2CSMBusWordData
        data := b.nativeByteOrder.putUint16 freshData value }
    match k.smbusRespond msg with
    | some _ =>
      { ret := .ok (), bus := s.bus, kstate := s.kstate
        trace := s.trace ++ [IoctlCall.smbus msg] }
    | none =>
      { ret := .error .ioctlError, bus := s.bus, kstate := s.kstate
        trace := s.trace ++ [IoctlCall.smbus msg] }

/-- Go `func (b *SMBus) ReadBlockData(address uintptr, register uint8)
([]byte, error)`: select the address, submit a read with
`size = I2CSMBusBlockData`; on return take `length := data[0]`, reject
`length > I2CSMBusBlockMax`, else return `data[1 : length+1]`. -/
def ReadBlockData (k : Kernel) (b : SMBus) (ks : KernelState) (address : Nat)
    (register : Nat) : OpResult (List Nat) :=
  let s := setAddress k b ks address
  match s.ret with
  | .error e => { ret := .error e, bus := s.bus, kstate := s.kstate, trace := s.trace }
  | .ok _ =>
    let msg : SMBusMsg :=
      { read_write := I2CSMBusRead, command := register, size := I2CSMBusBlockData
        data := freshData }
    match k.smbusRespond msg with
    | some d =>
      let length := d.getD 0 0
      if length > I2CSMBusBlockMax then
        { ret := .error (.protocolViolation length), bus := s.bus
          kstate := s.kstate, trace := s.trace ++ [IoctlCall.smbus msg] }
      else
        { ret := .ok ((d.drop 1).take length), bus := s.bus, kstate := s.kstate
          trace := s.trace ++ [IoctlCall.smbus msg] }
    | none =>
      { ret := .error .ioctlError, bus := s.bus, kstate := s.kstate
        trace := s.trace ++ [IoctlCall.smbus msg] }

/-- Go `func (b *SMBus) WriteBlockData(address uintptr, register uint8,
values []byte) error`: select the address FIRST, then reject payloads
longer than `I2CSMBusBlockMax`, else place `len(values)` in byte 0 and
the payload in bytes 1..len and submit with `size = I2CSMBusBlockData`.
The Go source performs the `setAddress` call before the length check. -/
def WriteBlockData (k : Kernel) (b : SMBus) (ks : KernelState) (address : Nat)
    (register : Nat) (values : List Nat) : OpResult Unit :=
  let s := setAddress k b ks address
  match s.ret with
  | .error e => { ret := .error e, bus := s.bus, kstate := s.kstate, trace := s.trace }
  | .ok _ =>
    let length := values.length
    if length > I2CSMBusBlockMax then
      { ret := .error (.lengthLimit length), bus := s.bus, kstate := s.kstate
        trace := s.trace }
    else
      let data := copyInto (freshData.set 0 length) 1 values
      let msg : SMBusMsg :=
        { read_write := I2CSMBusWrite, command := register
          size := I2CSMBusBlockData, data := data }
      match k.smbusRespond msg with
      | some _ =>
        { ret := .ok (), bus := s.bus, kstate := s.kstate
          trace := s.trace ++ [IoctlCall.smbus msg] }
      | none =>
        { ret := .error .ioctlError, bus := s.bus, kstate := s.kstate
          trace := s.trace ++ [IoctlCall.smbus msg] }

/-- Go `func (b *SMBus) BlockProcessCall(address uintptr, register uint8,
values []byte) ([]byte, error)`: select the address FIRST, reject inputs
longer than `I2CSMBusBlockMax`, submit a length-prefixed write with
`size = I2CSMBusBlockProcCall`; on return take `length := data[0]`,
reject `length > I2CSMBusBlockMax`, else return `data[1 : length+1]`. -/
def BlockProcessCall (k : Kernel) (b : SMBus) (ks : KernelState)
    (address : Nat) (register : Nat) (values : List Nat) :
    OpResult (List Nat) :=
  let s := setAddress k b ks address
  match s.ret with
  | .error e => { ret := .error e, bus := s.bus, kstate := s.kstate, trace := s.trace }
  | .ok _ =>
    let length := values.length
    if length > I2CSMBusBlockMax then
      { ret := .error (.lengthLimit length), bus := s.bus, kstate := s.kstate
        trace := s.trace }
    else
      let data := copyInto (freshData.set 0 length) 1 values
      let msg : SMBusMsg :=
        { read_write := I2CSMBusWrite, command := register
          size := I2CSMBusBlockProcCall, data := data }
      match k.smbusRespond msg with
      | some d =>
        let rlength := d.getD 0 0
        if rlength > I2CSMBusBlockMax then
          { ret := .error (.protocolViolation rlength), bus := s.bus
            kstate := s.kstate, trace := s.trace ++ [IoctlCall.smbus msg] }
        else
          { ret := .ok ((d.drop 1).take rlength), bus := s.bus
            kstate := s.kstate, trace := s.trace ++ [IoctlCall.smbus msg] }
      | none =>
        { ret := .error .ioctlError, bus := s.bus, kstate := s.kstate
          trace := s.trace ++ [IoctlCall.smbus msg] }

/-- Go `func (b *SMBus) ReadI2CBlockData(address uintptr, register, length
uint8) ([]byte, error)`: reject requested lengths above
`I2CSMBusBlockMax` before any kernel call, then select the address, place
the requested length in byte 0, submit a read with
`size = I2CSMBusI2CBlockData`, and return `data[1 : length+1]` of the
kernel's response, sliced by the REQUESTED length (the response's byte 0
is never consulted). -/
def ReadI2CBlockData (k : Kernel) (b : SMBus) (ks : KernelState)
    (address : Nat) (register : Nat) (length : Nat) : OpResult (List Nat) :=
  if length > I2CSMBusBlockMax then
    { ret := .error (.lengthLimit length), bus := b, kstate := ks, trace := [] }
  else
    let s := setAddress k b ks address
    match s.ret with
    | .error e => { ret := .error e, bus := s.bus, kstate := s.kstate, trace := s.trace }
    | .ok _ =>
      let msg : SMBusMsg :=
        { read_write := I2CSMBusRead, command := register
          size := I2CSMBusI2CBlockData, data := freshData.set 0 length }
      match k.smbusRespond msg with
      | some d =>
        { ret := .ok ((d.drop 1).take length), bus := s.bus, kstate := s.kstate
          trace := s.trace ++ [IoctlCall.smbus msg] }
      | none =>
        { ret := .error .ioctlError, bus := s.bus, kstate := s.kstate
          trace := s.trace ++ [IoctlCall.smbus msg] }

/-- Go `func (b *SMBus) WriteI2CBlockData(address uintptr, register uint8,
values []byte) error`: reject payloads longer than `I2CSMBusBlockMax`
before any kernel call (the length check precedes `setAddress` in this
function, unlike `WriteBlockData`), then select the address and submit a
length-prefixed write with `size = I2CSMBusI2CBlockData`. -/
def WriteI2CBlockData (k : Kernel) (b : SMBus) (ks : KernelState)
    (address : Nat) (register : Nat) (values : List Nat) : OpResult Unit :=
  let length := values.length
  if length > I2CSMBusBlockMax then
    { ret := .error (.lengthLimit length), bus := b, kstate := ks, trace := [] }
  else
    let s := setAddress k b ks address
    match s.ret with
    | .error e => { ret := .error e, bus := s.bus, kstate := s.kstate, trace := s.trace }
    | .ok _ =>
      let data := copyInto (freshData.set 0 length) 1 values
      let msg : SMBusMsg :=
        { read_write := I2CSMBusWrite, command := register
          size := I2CSMBusI2CBlockData, data := data }
      match k.smbusRespond msg with
      | some _ =>
        { ret := .ok (), bus := s.bus, kstate := s.kstate
          trace := s.trace ++ [IoctlCall.smbus msg] }
      | none =>
        { ret := .error .ioctlError, bus := s.bus, kstate := s.kstate
          trace := s.trace ++ [IoctlCall.smbus msg] }

/-- Go `type I2CMessage struct`: a caller-supplied raw I2C message with
`Address`, `Flags`, `Length` (Go `uint16` fields) and a caller-owned
byte buffer. -/
structure I2CMessage where
  Address : Nat
  Flags : Nat
  Length : Nat
  Buffer : List Nat
deriving DecidableEq, Repr

/-- The conversion loop of `I2CRdWr`: for each message copy
`Address`/`Flags`/`Length` into a `struct i2c_msg` entry, failing with
the empty-buffer error as soon as a message with a zero-length buffer is
encountered (the Go loop returns from inside the iteration). -/
def convertMessages : List I2CMessage → Except SMBusError (List RawMsg)
  | [] => .ok []
  | m :: rest =>
    if m.Buffer.length = 0 then .error .emptyBuffer
    else
      match convertMessages rest with
      | .error e => .error e
      | .ok r => .ok ({ addr := m.Address, flags := m.Flags, len := m.Length } :: r)

/-- Go `func (b *SMBus) I2CRdWr(messages []I2CMessage) error`: reject an
empty message list, convert each message (rejecting any zero-length
buffer) and submit the whole array through one `I2C_RDWR` ioctl.  The
two validation failures occur before the ioctl is attempted. -/
def I2CRdWr (k : Kernel) (b : SMBus) (ks : KernelState)
    (messages : List I2CMessage) : OpResult Unit :=
  if messages.length = 0 then
    { ret := .error .emptyTransfer, bus := b, kstate := ks, trace := [] }
  else
    match convertMessages messages with
    | .error e => { ret := .error e, bus := b, kstate := ks, trace := [] }
    | .ok internal =>
      if k.rdwrOk internal then
        { ret := .ok (), bus := b, kstate := ks
          trace := [IoctlCall.rdwr internal] }
      else
        { ret := .error .ioctlError, bus := b, kstate := ks
          trace := [IoctlCall.rdwr internal] }

/-- Oracle for the two system interactions of `NewSMBusWithPath`: the
result of `syscall.Open` (the descriptor, or `none` on failure) and the
result of the `I2C_FUNCS` ioctl (the functionality mask the kernel
writes, or `none` on failure). -/
structure OpenKernel where
  openResult : Option Nat
  funcsResult : Option Nat

/-- Descriptor lifecycle events issued by `NewSMBusWithPath`, in order. -/
inductive FdEvent where
  | opened (fd : Nat)
  | closed (fd : Nat)
deriving DecidableEq, Repr

/-- Go `func NewSMBusWithPath(path string) (*SMBus, error)`: open the
device node read-write; on open failure return the error with no
descriptor ever opened; on `I2C_FUNCS` ioctl failure close the
just-opened descriptor and return the error; on success return a handle
whose `Funcs` is the queried mask and whose remaining fields carry Go
zero values (`address = 0`, `Force = prevForce = pecEnabled = false`),
with `nativeByteOrder` set to the host order `nbo`. -/
def NewSMBusWithPath (k : OpenKernel) (nbo : ByteOrder) :
    Except SMBusError SMBus × List FdEvent :=
  match k.openResult with
  | none => (.error .openError, [])
  | some fd =>
    match k.funcsResult with
    | none => (.error .capabilityQuery, [.opened fd, .closed fd])
    | some funcs =>
      (.ok { Funcs := funcs, address := 0, Force := false, prevForce := false
             pecEnabled := false, nativeByteOrder := nbo },
       [.opened fd])

/-- The kernel session state right after `NewSMBusWithPath` succeeds: no
slave-select ioctl has been issued on the fresh descriptor. -/
def freshKernelState : KernelState := { selected := none }

/-- Concrete kernel whose ioctls all succeed and whose `I2C_SMBUS`
response echoes the request union back unchanged. -/
def kernelAllOk : Kernel :=
  { slaveOk := fun _ _ => true
    pecOk := fun _ => true
    rdwrOk := fun _ => true
    smbusRespond := fun m => some m.data }

/-- Concrete kernel whose ioctls all succeed and whose `I2C_SMBUS`
response union always holds the given content. -/
def kernelConst (d : SMBusData) : Kernel :=
  { slaveOk := fun _ _ => true
    pecOk := fun _ => true
    rdwrOk := fun _ => true
    smbusRespond := fun _ => some d }

/-- Concrete handle with every capability bit of the SMBus emulation mask
set, cached at the given address, force off, little-endian host. -/
def busAt (addr : Nat) : SMBus :=
  { Funcs := 0xEFF000F, address := addr, Force := false, prevForce := false
    pecEnabled := false, nativeByteOrder := .little }

/-- Concrete handle whose capability mask lacks the PEC bit
(`0x0EFF0007` has bit `0x8` clear), little-endian host. -/
def busNoPEC : SMBus :=
  { Funcs := 0x0EFF0007, address := 0, Force := false, prevForce := false
    pecEnabled := false, nativeByteOrder := .little }

/-!
Theorems settling the claims.
-/

/-- C4: selectAddress (`setAddress` in the source) issues a slave-select
kernel call if and only if the requested address differs from the cached
address or the current force flag differs from the last-applied force
flag; every call it issues uses the force variant exactly when the force
flag is set; on success the cache holds the new address+force pair (and
nothing else on the handle changes), and on failure the handle and kernel
state are left unchanged and the address-select error is propagated. -/
theorem setAddress_issues_call_iff (k : Kernel) (b : SMBus) (ks : KernelState)
    (a : Nat) :
    ((setAddress k b ks a).trace ≠ [] ↔ (b.address ≠ a ∨ b.prevForce ≠ b.Force)) ∧
    (∀ c ∈ (setAddress k b ks a).trace, c = IoctlCall.slaveSelect b.Force a) ∧
    (k.slaveOk b.Force a = true →
      (setAddress k b ks a).ret = .ok () ∧
      (setAddress k b ks a).bus.address = a ∧
      (setAddress k b ks a).bus.prevForce = b.Force ∧
      (setAddress k b ks a).bus.Funcs = b.Funcs ∧
      (setAddress k b ks a).bus.Force = b.Force ∧
      (setAddress k b ks a).bus.pecEnabled = b.pecEnabled) ∧
    ((b.address ≠ a ∨ b.prevForce ≠ b.Force) → k.slaveOk b.Force a = false →
      (setAddress k b ks a).ret = .error .addressSelect ∧
      (setAddress k b ks a).bus = b ∧ (setAddress k b ks a).kstate = ks) := by
  by_cases h : b.address ≠ a ∨ b.prevForce ≠ b.Force
  · cases hs : k.slaveOk b.Force a
    · simp only [setAddress, if_pos h, hs, Bool.false_eq_true, if_false]
      refine ⟨by simp [h], ?_, fun ht => ht.elim,
        fun _ _ => by simp⟩
      intro c hc
      simpa using hc
    · simp only [setAddress, if_pos h, hs, eq_self_iff_true, if_true]
      refine ⟨by simp [h], ?_, fun _ => by simp,
        fun _ hfalse => absurd hfalse (by simp)⟩
      intro c hc
      simpa using hc
  · have h0 := h
    simp only [setAddress, if_neg h]
    push_neg at h
    exact ⟨by simp [h.1, h.2], fun c hc => absurd hc (List.not_mem_nil c),
      fun _ => by simp [h.1, h.2], fun hcon _ => absurd hcon h0⟩

/-- C4 witness: at a concrete handle cached at address 1 with an
all-succeeding kernel, selecting address 2 satisfies the differing-pair
condition and, by the theorem, succeeds and updates the cache to 2. -/
theorem setAddress_issues_call_iff_witness :
    ((busAt 1).address ≠ 2 ∨ (busAt 1).prevForce ≠ (busAt 1).Force) ∧
    (setAddress kernelAllOk (busAt 1) freshKernelState 2).ret = .ok () ∧
    (setAddress kernelAllOk (busAt 1) freshKernelState 2).bus.address = 2 :=
  ⟨by decide,
   ((setAddress_issues_call_iff kernelAllOk (busAt 1) freshKernelState 2).2.2.1
      (by decide)).1,
   ((setAddress_issues_call_iff kernelAllOk (busAt 1) freshKernelState 2).2.2.1
      (by decide)).2.1⟩


/-- C8: when the capability mask lacks the PEC bit, EnablePEC (with
either argument) returns the unsupported-feature error, issues no kernel
call, and leaves the handle (in particular its PEC-enabled state)
unchanged; when the mask has the bit, the PEC ioctl is issued and the
local PEC state is updated exactly when that ioctl succeeds, and left
unchanged when it fails. -/
theorem EnablePEC_spec (k : Kernel) (b : SMBus) (ks : KernelState)
    (enable : Bool) :
    (BitsSet b.Funcs SMBusPECFlag = false →
      (EnablePEC k b ks enable).ret = .error .unsupportedFeature ∧
      (EnablePEC k b ks enable).trace = [] ∧
      (EnablePEC k b ks enable).bus = b) ∧
    (BitsSet b.Funcs SMBusPECFlag = true →
      (EnablePEC k b ks enable).trace = [IoctlCall.pec (if enable then 1 else 0)] ∧
      (k.pecOk (if enable then 1 else 0) = true →
        (EnablePEC k b ks enable).ret = .ok () ∧
        (EnablePEC k b ks enable).bus = { b with pecEnabled := enable }) ∧
      (k.pecOk (if enable then 1 else 0) = false →
        (EnablePEC k b ks enable).ret = .error .ioctlError ∧
        (EnablePEC k b ks enable).bus = b)) := by
  cases hp : BitsSet b.Funcs SMBusPECFlag
  · refine ⟨fun _ => ?_, fun ht => Bool.noConfusion ht⟩
    simp [EnablePEC, hp]
  · refine ⟨fun hf => Bool.noConfusion hf, fun _ => ?_⟩
    cases hk : k.pecOk (if enable then 1 else 0)
    · simp [EnablePEC, hp, hk]
    · simp [EnablePEC, hp, hk]

/-- C8 witness: on a concrete handle whose mask lacks the PEC bit, the
theorem yields the unsupported-feature error with an empty trace and an
unchanged handle. -/
theorem EnablePEC_spec_witness :
    BitsSet busNoPEC.Funcs SMBusPECFlag = false ∧
    (EnablePEC kernelAllOk busNoPEC freshKernelState true).ret =
      .error .unsupportedFeature ∧
    (EnablePEC kernelAllOk busNoPEC freshKernelState true).bus = busNoPEC :=
  ⟨by decide,
   ((EnablePEC_spec kernelAllOk busNoPEC freshKernelState true).1 (by decide)).1,
   ((EnablePEC_spec kernelAllOk busNoPEC freshKernelState true).1 (by decide)).2.2⟩

/-- C9: when the device node cannot be opened, NewSMBusWithPath returns
the open error and no descriptor event at all occurs; when the open
succeeds but the capability (I2C_FUNCS) query fails, the just-opened
descriptor is closed before the error is returned, so no failed open or
capability query leaks an open descriptor. -/
theorem NewSMBusWithPath_no_leak (k : OpenKernel) (nbo : ByteOrder) :
    (k.openResult = none →
      NewSMBusWithPath k nbo = (.error .openError, [])) ∧
    (∀ fd, k.openResult = some fd → k.funcsResult = none →
      NewSMBusWithPath k nbo =
        (.error .capabilityQuery, [.opened fd, .closed fd])) := by
  constructor
  · intro h
    simp [NewSMBusWithPath, h]
  · intro fd hopen hfuncs
    simp [NewSMBusWithPath, hopen, hfuncs]

/-- C9 witness: with a concrete oracle whose open yields descriptor 3 and
whose capability query fails, the theorem gives the capability-query
error and the descriptor 3 opened-then-closed event sequence. -/
theorem NewSMBusWithPath_no_leak_witness :
    (OpenKernel.mk (some 3) none).openResult = some 3 ∧
    NewSMBusWithPath (OpenKernel.mk (some 3) none) .little =
      (.error .capabilityQuery, [.opened 3, .closed 3]) :=
  ⟨rfl,
   (NewSMBusWithPath_no_leak (OpenKernel.mk (some 3) none) .little).2 3 rfl rfl⟩

/-- C2 counterexample: a plain byte write of value 7 submits a control
block whose command byte is 7, not zero — WriteByte carries the written
value in the command field, refuting the claim that every plain byte
transaction submits a zero command byte.  (SMBusMsg fields in order:
read_write, command, size, data.) -/
theorem writeByte_command_carries_value :
    (WriteByte kernelAllOk (busAt 5) freshKernelState 5 7).trace =
      [IoctlCall.smbus ⟨I2CSMBusWrite, 7, I2CSMBusByte, freshData⟩] ∧
    (7 : Nat) ≠ 0 := by
  constructor
  · rfl
  · decide

/-- C2 (amended): quick transactions and plain byte reads submit a
control block whose command byte is zero; a plain byte write submits a
control block whose command byte equals the value being written (the
value travels in the command field, as in the source, and the union
stays fresh).  (SMBusMsg fields in order: read_write, command, size,
data.) -/
theorem plain_ops_command_bytes (k : Kernel) (b : SMBus) (ks : KernelState)
    (a v : Nat) (h : (setAddress k b ks a).ret = .ok ()) :
    (WriteQuick k b ks a).trace = (setAddress k b ks a).trace ++
      [IoctlCall.smbus ⟨I2CSMBusWrite, 0, I2CSMBusQuick, freshData⟩] ∧
    (ReadByte k b ks a).trace = (setAddress k b ks a).trace ++
      [IoctlCall.smbus ⟨I2CSMBusRead, 0, I2CSMBusByte, freshData⟩] ∧
    (WriteByte k b ks a v).trace = (setAddress k b ks a).trace ++
      [IoctlCall.smbus ⟨I2CSMBusWrite, v, I2CSMBusByte, freshData⟩] := by
  refine ⟨?_, ?_, ?_⟩
  · simp only [WriteQuick, h]
    cases hk : k.smbusRespond ⟨I2CSMBusWrite, 0, I2CSMBusQuick, freshData⟩ <;>
      simp [hk]
  · simp only [ReadByte, h]
    cases hk : k.smbusRespond ⟨I2CSMBusRead, 0, I2CSMBusByte, freshData⟩ <;>
      simp [hk]
  · simp only [WriteByte, h]
    cases hk : k.smbusRespond ⟨I2CSMBusWrite, v, I2CSMBusByte, freshData⟩ <;>
      simp [hk]

/-- C2 witness: on a concrete handle already cached at the target
address, the amended theorem gives the exact single-element traces for a
quick write and for a byte write of 9. -/
theorem plain_ops_command_bytes_witness :
    (setAddress kernelAllOk (busAt 5) freshKernelState 5).ret = .ok () ∧
    (WriteQuick kernelAllOk (busAt 5) freshKernelState 5).trace =
      (setAddress kernelAllOk (busAt 5) freshKernelState 5).trace ++
      [IoctlCall.smbus ⟨I2CSMBusWrite, 0, I2CSMBusQuick, freshData⟩] ∧
    (WriteByte kernelAllOk (busAt 5) freshKernelState 5 9).trace =
      (setAddress kernelAllOk (busAt 5) freshKernelState 5).trace ++
      [IoctlCall.smbus ⟨I2CSMBusWrite, 9, I2CSMBusByte, freshData⟩] :=
  ⟨rfl,
   (plain_ops_command_bytes kernelAllOk (busAt 5) freshKernelState 5 9 rfl).1,
   (plain_ops_command_bytes kernelAllOk (busAt 5) freshKernelState 5 9 rfl).2.2⟩

/-- Helper: when every message buffer is nonempty, the conversion loop
succeeds and yields the address/flags/length triples in input order. -/
theorem convertMessages_ok (messages : List I2CMessage)
    (h : ∀ m ∈ messages, m.Buffer.length ≠ 0) :
    convertMessages messages =
      .ok (messages.map fun m => ⟨m.Address, m.Flags, m.Length⟩) := by
  induction messages with
  | nil => rfl
  | cons m rest ih =>
    have hm : ¬ m.Buffer.length = 0 := h m (by simp)
    have hr := ih (fun x hx => h x (by simp [hx]))
    simp [convertMessages, hm, hr]

/-- Helper: when some message buffer is empty, the conversion loop fails
with the empty-buffer error. -/
theorem convertMessages_err (messages : List I2CMessage)
    (h : ∃ m ∈ messages, m.Buffer.length = 0) :
    convertMessages messages = .error .emptyBuffer := by
  induction messages with
  | nil => simp at h
  | cons m rest ih =>
    by_cases hm : m.Buffer.length = 0
    · simp [convertMessages, hm]
    · obtain ⟨x, hx, hx0⟩ := h
      rcases List.mem_cons.mp hx with heq | hx2
      · exact absurd (heq ▸ hx0) hm
      · have hr := ih ⟨x, hx2, hx0⟩
        simp [convertMessages, hm, hr]

/-- C6: a raw transfer of an empty message list fails with the
empty-transfer error and issues no kernel call; a transfer in which some
message has a zero-length buffer fails with the empty-buffer error and
issues no kernel call; otherwise the whole sequence is forwarded in one
I2C_RDWR kernel call, in input order, each entry carrying the address,
flags and length of the corresponding input message. -/
theorem I2CRdWr_spec (k : Kernel) (b : SMBus) (ks : KernelState)
    (messages : List I2CMessage) :
    (messages = [] →
      (I2CRdWr k b ks messages).ret = .error .emptyTransfer ∧
      (I2CRdWr k b ks messages).trace = []) ∧
    ((∃ m ∈ messages, m.Buffer.length = 0) →
      (I2CRdWr k b ks messages).ret = .error .emptyBuffer ∧
      (I2CRdWr k b ks messages).trace = []) ∧
    (messages ≠ [] → (∀ m ∈ messages, m.Buffer.length ≠ 0) →
      (I2CRdWr k b ks messages).trace =
        [IoctlCall.rdwr (messages.map fun m =>
          ⟨m.Address, m.Flags, m.Length⟩)]) := by
  refine ⟨fun hnil => ?_, fun hex => ?_, fun hne hall => ?_⟩
  · subst hnil
    simp [I2CRdWr]
  · have hne : messages.length ≠ 0 := by
      obtain ⟨x, hx, _⟩ := hex
      exact List.length_pos.mpr (List.ne_nil_of_mem hx) |>.ne.symm
    simp [I2CRdWr, hne, convertMessages_err messages hex]
  · have hlen : messages.length ≠ 0 :=
      fun h0 => hne (List.length_eq_zero.mp h0)
    have hc := convertMessages_ok messages hall
    cases hk : k.rdwrOk (messages.map fun m => ⟨m.Address, m.Flags, m.Length⟩) <;>
      simp [I2CRdWr, hlen, hc, hk]

/-- C6 witness: a two-message transfer with nonempty buffers is forwarded
as one kernel call holding both address/flags/length triples in order,
by the theorem applied at that concrete list. -/
theorem I2CRdWr_spec_witness :
    ([⟨16, 0, 1, [255]⟩, ⟨16, 1, 2, [0, 0]⟩] : List I2CMessage) ≠ [] ∧
    (∀ m ∈ ([⟨16, 0, 1, [255]⟩, ⟨16, 1, 2, [0, 0]⟩] : List I2CMessage),
      m.Buffer.length ≠ 0) ∧
    (I2CRdWr kernelAllOk (busAt 5) freshKernelState
        [⟨16, 0, 1, [255]⟩, ⟨16, 1, 2, [0, 0]⟩]).trace =
      [IoctlCall.rdwr [⟨16, 0, 1⟩, ⟨16, 1, 2⟩]] :=
  ⟨by decide, by decide,
   (I2CRdWr_spec kernelAllOk (busAt 5) freshKernelState
      [⟨16, 0, 1, [255]⟩, ⟨16, 1, 2, [0, 0]⟩]).2.2 (by decide) (by decide)⟩

/-- C5: for block-data reads and block process calls, when the
`I2C_SMBUS` ioctl succeeds with a response union whose length byte
(byte 0) exceeds the 32-byte block maximum, the operation fails with the
protocol-violation error carrying that length; otherwise it returns
exactly the reported count of bytes, taken from response bytes
1..count.  (SMBusMsg fields in order: read_write, command, size,
data.) -/
theorem block_read_reported_length (k : Kernel) (b : SMBus)
    (ks : KernelState) (a reg : Nat) (values : List Nat) (d : SMBusData)
    (h : (setAddress k b ks a).ret = .ok ()) (hd : d.length = 34) :
    (k.smbusRespond ⟨I2CSMBusRead, reg, I2CSMBusBlockData, freshData⟩ = some d →
      (d.getD 0 0 > I2CSMBusBlockMax →
        (ReadBlockData k b ks a reg).ret =
          .error (.protocolViolation (d.getD 0 0))) ∧
      (d.getD 0 0 ≤ I2CSMBusBlockMax →
        (ReadBlockData k b ks a reg).ret = .ok ((d.drop 1).take (d.getD 0 0)) ∧
        ((d.drop 1).take (d.getD 0 0)).length = d.getD 0 0)) ∧
    (values.length ≤ I2CSMBusBlockMax →
      k.smbusRespond ⟨I2CSMBusWrite, reg, I2CSMBusBlockProcCall,
          copyInto (freshData.set 0 values.length) 1 values⟩ = some d →
      (d.getD 0 0 > I2CSMBusBlockMax →
        (BlockProcessCall k b ks a reg values).ret =
          .error (.protocolViolation (d.getD 0 0))) ∧
      (d.getD 0 0 ≤ I2CSMBusBlockMax →
        (BlockProcessCall k b ks a reg values).ret =
          .ok ((d.drop 1).take (d.getD 0 0)) ∧
        ((d.drop 1).take (d.getD 0 0)).length = d.getD 0 0)) := by
  have hlen : ∀ n, n ≤ I2CSMBusBlockMax →
      ((d.drop 1).take n).length = n := by
    intro n hn
    simp only [List.length_take, List.length_drop, hd]
    simp only [I2CSMBusBlockMax] at hn
    omega
  constructor
  · intro hresp
    constructor
    · intro hgt
      simp only [ReadBlockData, h, hresp]
      rw [if_pos hgt]
    · intro hle
      have hngt : ¬ d.getD 0 0 > I2CSMBusBlockMax := by omega
      simp only [ReadBlockData, h, hresp]
      rw [if_neg hngt]
      exact ⟨rfl, hlen (d.getD 0 0) hle⟩
  · intro hin hresp
    have hnin : ¬ values.length > I2CSMBusBlockMax := by omega
    constructor
    · intro hgt
      simp only [BlockProcessCall, h]
      simp only [if_neg hnin, hresp]
      rw [if_pos hgt]
    · intro hle
      have hngt : ¬ d.getD 0 0 > I2CSMBusBlockMax := by omega
      simp only [BlockProcessCall, h]
      simp only [if_neg hnin, hresp]
      rw [if_neg hngt]
      exact ⟨rfl, hlen (d.getD 0 0) hle⟩

/-- C5 witness: against a concrete kernel whose block-data response
carries length byte 33, the theorem yields the protocol-violation error
rather than a truncated payload. -/
theorem block_read_reported_length_witness :
    (freshData.set 0 33).length = 34 ∧
    (freshData.set 0 33).getD 0 0 > I2CSMBusBlockMax ∧
    (ReadBlockData (kernelConst (freshData.set 0 33)) (busAt 5)
        freshKernelState 5 2).ret = .error (.protocolViolation 33) :=
  ⟨by decide, by decide,
   ((block_read_reported_length (kernelConst (freshData.set 0 33)) (busAt 5)
       freshKernelState 5 2 [] (freshData.set 0 33) rfl
       (by decide)).1 rfl).1 (by decide)⟩

/-- Helper: decoding the fresh union right after encoding a 16-bit value
into it returns that value, for either byte order. -/
theorem uint16_putUint16_fresh (bo : ByteOrder) (v : Nat) (hv : v < 65536) :
    bo.uint16 (bo.putUint16 freshData v) = v := by
  have hfresh : freshData = 0 :: 0 :: List.replicate 32 0 := rfl
  cases bo <;>
    simp [ByteOrder.uint16, ByteOrder.putUint16, hfresh, List.set] <;>
    omega

/-- Helper: the 16-bit decode consults only bytes 0 and 1 of the
union. -/
theorem uint16_congr (bo : ByteOrder) (d e : List Nat)
    (h0 : d.getD 0 0 = e.getD 0 0) (h1 : d.getD 1 0 = e.getD 1 0) :
    bo.uint16 d = bo.uint16 e := by
  cases bo <;> simp only [ByteOrder.uint16] <;> rw [h0, h1]

/-- C7: a word-data write of a 16-bit value v submits a control block
whose first two payload bytes are the native-byte-order encoding of v,
and a word-data read decodes the response's first two payload bytes with
the same native order, so against a kernel that echoes those two raw
bytes back unmodified the read returns exactly v. -/
theorem word_data_native_roundtrip (k : Kernel) (b : SMBus)
    (ks : KernelState) (a reg v : Nat) (hv : v < 65536)
    (h : (setAddress k b ks a).ret = .ok ()) (d : SMBusData)
    (hresp : k.smbusRespond ⟨I2CSMBusRead, reg, I2CSMBusWordData, freshData⟩ =
      some d)
    (h0 : d.getD 0 0 = (b.nativeByteOrder.putUint16 freshData v).getD 0 0)
    (h1 : d.getD 1 0 = (b.nativeByteOrder.putUint16 freshData v).getD 1 0) :
    (WriteWordData k b ks a reg v).trace = (setAddress k b ks a).trace ++
      [IoctlCall.smbus ⟨I2CSMBusWrite, reg, I2CSMBusWordData,
        b.nativeByteOrder.putUint16 freshData v⟩] ∧
    (ReadWordData k b ks a reg).ret = .ok v := by
  constructor
  · simp only [WriteWordData, h]
    cases hk : k.smbusRespond ⟨I2CSMBusWrite, reg, I2CSMBusWordData,
      b.nativeByteOrder.putUint16 freshData v⟩ <;> simp [hk]
  · simp only [ReadWordData, h, hresp]
    rw [uint16_congr b.nativeByteOrder d
      (b.nativeByteOrder.putUint16 freshData v) h0 h1]
    rw [uint16_putUint16_fresh b.nativeByteOrder v hv]

/-- C7 witness: on a little-endian handle, writing 0x1234 then reading
against a kernel that echoes the encoded bytes back returns exactly
0x1234, by the theorem at those concrete inputs. -/
theorem word_data_native_roundtrip_witness :
    (0x1234 : Nat) < 65536 ∧
    (ReadWordData (kernelConst (ByteOrder.little.putUint16 freshData 0x1234))
        (busAt 5) freshKernelState 5 2).ret = .ok 0x1234 :=
  ⟨by decide,
   (word_data_native_roundtrip
      (kernelConst (ByteOrder.little.putUint16 freshData 0x1234)) (busAt 5)
      freshKernelState 5 2 0x1234 (by decide) rfl
      (ByteOrder.little.putUint16 freshData 0x1234) rfl rfl rfl).2⟩

/-- C10: a successful I2C-block read returns exactly the requested number
of bytes, taken from response bytes 1..length; the result is computed
from the requested length for every possible kernel response, so the
length byte the kernel leaves at response byte 0 never influences the
returned slice. -/
theorem readI2CBlock_requested_length (k : Kernel) (b : SMBus)
    (ks : KernelState) (a reg len : Nat) (hlen : len ≤ I2CSMBusBlockMax)
    (h : (setAddress k b ks a).ret = .ok ()) (d : SMBusData)
    (hd : d.length = 34)
    (hresp : k.smbusRespond ⟨I2CSMBusRead, reg, I2CSMBusI2CBlockData,
      freshData.set 0 len⟩ = some d) :
    (ReadI2CBlockData k b ks a reg len).ret = .ok ((d.drop 1).take len) ∧
    ((d.drop 1).take len).length = len := by
  have hnl : ¬ len > I2CSMBusBlockMax := by omega
  constructor
  · simp only [ReadI2CBlockData, if_neg hnl, h, hresp]
  · simp only [List.length_take, List.length_drop, hd]
    simp only [I2CSMBusBlockMax] at hlen
    omega

/-- C10 witness: requesting 5 bytes against a kernel whose response
carries length byte 7 returns exactly 5 zero bytes — the reported length
byte is ignored. -/
theorem readI2CBlock_requested_length_witness :
    (freshData.set 0 7).getD 0 0 = 7 ∧
    (5 : Nat) ≤ I2CSMBusBlockMax ∧
    (ReadI2CBlockData (kernelConst (freshData.set 0 7)) (busAt 5)
        freshKernelState 5 2 5).ret = .ok (List.replicate 5 0) :=
  ⟨by decide, by decide,
   (readI2CBlock_requested_length (kernelConst (freshData.set 0 7)) (busAt 5)
      freshKernelState 5 2 5 (by decide) rfl (freshData.set 0 7)
      (by decide) rfl).1⟩

/-- Helper: every ioctl in the address-selection trace is a slave-select
call (in particular none is an I2C_SMBUS transaction). -/
theorem setAddress_trace_calls (k : Kernel) (b : SMBus) (ks : KernelState)
    (a : Nat) :
    ∀ c ∈ (setAddress k b ks a).trace, c = IoctlCall.slaveSelect b.Force a := by
  intro c hc
  unfold setAddress at hc
  split at hc
  · split at hc <;> simpa using hc
  · simp at hc

/-- Helper: copying payload bytes from offset 1 onward never touches the
length-prefix byte at offset 0. -/
theorem copyInto_getD_zero (values : List Nat) :
    ∀ (data : List Nat) (start : Nat), 1 ≤ start →
      (copyInto data start values).getD 0 0 = data.getD 0 0 := by
  induction values with
  | nil => intro data start _; rfl
  | cons v rest ih =>
    intro data start hs
    rw [copyInto, ih (data.set start v) (start + 1) (by omega)]
    have hne : start ≠ 0 := by omega
    simp [List.getD_eq_getElem?_getD, List.getElem?_set_ne hne]

/-- C1 counterexample: a block-data write of 33 bytes to an address that
differs from the cached one returns the length-limit error, but only
after the slave-select ioctl has been issued and the address cache
updated from 1 to 2 — refuting the claim that the rejection happens
before any kernel control call and with no handle state change. -/
theorem writeBlockData_oversize_selects_address :
    (WriteBlockData kernelAllOk (busAt 1) freshKernelState 2 7
        (List.replicate 33 0)).ret = .error (.lengthLimit 33) ∧
    (WriteBlockData kernelAllOk (busAt 1) freshKernelState 2 7
        (List.replicate 33 0)).trace = [IoctlCall.slaveSelect false 2] ∧
    (WriteBlockData kernelAllOk (busAt 1) freshKernelState 2 7
        (List.replicate 33 0)).bus.address = 2 ∧
    (busAt 1).address = 1 := by
  refine ⟨rfl, rfl, rfl, rfl⟩

/-- C1 (amended): a payload longer than 32 bytes is rejected with the
length-limit error before the I2C_SMBUS transaction ioctl is attempted
in all three block-type writes, and for the I2C-block write before any
kernel call at all (empty trace, handle and kernel state untouched); in
the block-data write and block process call the address-selection ioctl
runs first and may update the address cache.  A 32-byte payload passes
validation in all three and is forwarded with length-prefix byte exactly
32. -/
theorem block_write_length_validation (k : Kernel) (b : SMBus)
    (ks : KernelState) (a reg : Nat) (values ws : List Nat)
    (h : (setAddress k b ks a).ret = .ok ())
    (hlong : values.length > I2CSMBusBlockMax) (hws : ws.length = 32) :
    ((WriteBlockData k b ks a reg values).ret =
        .error (.lengthLimit values.length) ∧
      ∀ c ∈ (WriteBlockData k b ks a reg values).trace, c.isSmbus = false) ∧
    ((BlockProcessCall k b ks a reg values).ret =
        .error (.lengthLimit values.length) ∧
      ∀ c ∈ (BlockProcessCall k b ks a reg values).trace,
        c.isSmbus = false) ∧
    ((WriteI2CBlockData k b ks a reg values).ret =
        .error (.lengthLimit values.length) ∧
      (WriteI2CBlockData k b ks a reg values).trace = [] ∧
      (WriteI2CBlockData k b ks a reg values).bus = b ∧
      (WriteI2CBlockData k b ks a reg values).kstate = ks) ∧
    ((WriteBlockData k b ks a reg ws).trace = (setAddress k b ks a).trace ++
        [IoctlCall.smbus ⟨I2CSMBusWrite, reg, I2CSMBusBlockData,
          copyInto (freshData.set 0 32) 1 ws⟩]) ∧
    ((BlockProcessCall k b ks a reg ws).trace =
        (setAddress k b ks a).trace ++
        [IoctlCall.smbus ⟨I2CSMBusWrite, reg, I2CSMBusBlockProcCall,
          copyInto (freshData.set 0 32) 1 ws⟩]) ∧
    ((WriteI2CBlockData k b ks a reg ws).trace =
        (setAddress k b ks a).trace ++
        [IoctlCall.smbus ⟨I2CSMBusWrite, reg, I2CSMBusI2CBlockData,
          copyInto (freshData.set 0 32) 1 ws⟩]) ∧
    (copyInto (freshData.set 0 32) 1 ws).getD 0 0 = 32 := by
  have hnot : ¬ ws.length > I2CSMBusBlockMax := by
    simp only [I2CSMBusBlockMax]
    omega
  have hsel : ∀ c ∈ (setAddress k b ks a).trace, c.isSmbus = false := by
    intro c hc
    rw [setAddress_trace_calls k b ks a c hc]
    rfl
  refine ⟨⟨?_, ?_⟩, ⟨?_, ?_⟩, ⟨?_, ?_, ?_, ?_⟩, ?_, ?_, ?_, ?_⟩
  · simp only [WriteBlockData, h]
    rw [if_pos hlong]
  · simp only [WriteBlockData, h]
    rw [if_pos hlong]
    exact hsel
  · simp only [BlockProcessCall, h]
    rw [if_pos hlong]
  · simp only [BlockProcessCall, h]
    rw [if_pos hlong]
    exact hsel
  · simp only [WriteI2CBlockData]
    rw [if_pos hlong]
  · simp only [WriteI2CBlockData]
    rw [if_pos hlong]
  · simp only [WriteI2CBlockData]
    rw [if_pos hlong]
  · simp only [WriteI2CBlockData]
    rw [if_pos hlong]
  · simp only [WriteBlockData, h]
    rw [if_neg hnot, hws]
    cases hk : k.smbusRespond ⟨I2CSMBusWrite, reg, I2CSMBusBlockData,
      copyInto (freshData.set 0 32) 1 ws⟩ <;> simp [hk]
  · simp only [BlockProcessCall, h]
    rw [if_neg hnot, hws]
    cases hk : k.smbusRespond ⟨I2CSMBusWrite, reg, I2CSMBusBlockProcCall,
        copyInto (freshData.set 0 32) 1 ws⟩
    · simp [hk]
    · simp only [hk]
      split <;> rfl
  · simp only [WriteI2CBlockData]
    rw [if_neg hnot, h, hws]
    cases hk : k.smbusRespond ⟨I2CSMBusWrite, reg, I2CSMBusI2CBlockData,
      copyInto (freshData.set 0 32) 1 ws⟩ <;> simp [hk]
  · rw [copyInto_getD_zero ws (freshData.set 0 32) 1 (by omega)]
    rfl

/-- C1 witness: concrete 33- and 32-byte payloads exercise the amended
theorem on a handle already cached at the target address: the oversize
I2C-block write is rejected with the length-limit error before any
kernel call, and the 32-byte payload is forwarded with length-prefix
byte exactly 32. -/
theorem block_write_length_validation_witness :
    (List.replicate 33 (0 : Nat)).length > I2CSMBusBlockMax ∧
    (List.replicate 32 (1 : Nat)).length = 32 ∧
    (WriteI2CBlockData kernelAllOk (busAt 5) freshKernelState 5 2
        (List.replicate 33 0)).ret = .error (.lengthLimit 33) ∧
    (copyInto (freshData.set 0 32) 1 (List.replicate 32 1)).getD 0 0 = 32 :=
  ⟨by decide, by decide,
   (block_write_length_validation kernelAllOk (busAt 5) freshKernelState 5 2
      (List.replicate 33 0) (List.replicate 32 1) rfl (by decide)
      (by decide)).2.2.1.1,
   (block_write_length_validation kernelAllOk (busAt 5) freshKernelState 5 2
      (List.replicate 33 0) (List.replicate 32 1) rfl (by decide)
      (by decide)).2.2.2.2.2.2⟩

/-- C3 (code refutation at the failing input): a handle freshly opened
by NewSMBusWithPath has its cached address initialized to the Go zero
value 0, so the first transaction to slave address 0 with force off
finds the cache already equal and skips the slave-select ioctl entirely:
the transaction control block is submitted (the trace holds only the
I2C_SMBUS call) while the kernel has never had any slave address
installed (selected stays none) — violating the claimed invariant that a
successful slave-select for the current pair precedes every
transaction. -/
theorem fresh_handle_address_zero_skips_select :
    (NewSMBusWithPath (OpenKernel.mk (some 4) (some 0x0EFF000F)) .little).1 =
      .ok (busAt 0) ∧
    (busAt 0).address = 0 ∧
    freshKernelState.selected = none ∧
    (WriteByte kernelAllOk (busAt 0) freshKernelState 0 9).ret = .ok () ∧
    (WriteByte kernelAllOk (busAt 0) freshKernelState 0 9).trace =
      [IoctlCall.smbus ⟨I2CSMBusWrite, 9, I2CSMBusByte, freshData⟩] ∧
    (WriteByte kernelAllOk (busAt 0) freshKernelState 0 9).kstate.selected =
      none := by
  refine ⟨rfl, rfl, rfl, rfl, rfl, rfl⟩

end SMBusGo
